import Mathlib

/-!
Verification development for the journal-tui repository.

Shallow embedding of the two core subsystems:
* the animated authentication gate of src/matrix.rs (phase state machine,
  rain-column brightness simulation, the polling loop of
  run_matrix_authentication), and
* the encrypted vault lifecycle of src/volume.rs (external hdiutil and
  security invocations, unmount escalation, entry migration) together with
  the non-macOS branch of src/auth.rs.

Modelling conventions: wall-clock time is a natural number of milliseconds
and every iteration of a 50 ms render loop advances it by one tick of 50 ms;
f32 arithmetic of the rain columns is modelled exactly over the rationals;
spawned external processes are modelled by a Cmd record (program, argument
list, piped stdin data) plus a ProcOutput record supplied by the
environment; randomness is supplied through explicit oracle parameters.
Rust String::len is a byte count; every message manipulated by the animation
is ASCII, so String.length agrees with it.
-/

set_option maxRecDepth 40000

namespace JournalTui

/-! ## Phase state machine (src/matrix.rs, AnimationPhase / MatrixAnimation) -/

inductive AnimationPhase where
  | matrixRain
  | authenticating
  | decoding
  | success
  | failed
deriving DecidableEq, Repr

/-- Controller-level animation state (matrix.rs lines 86-93).  The rain
columns are rendered state only and never feed back into the phase logic,
so they are modelled separately by MatrixColumn below. -/
structure MatrixAnimation where
  phase : AnimationPhase
  message : String
  decodedChars : Nat
  decodeCompleteTime : Option Nat
deriving DecidableEq, Repr

def MatrixAnimation.new : MatrixAnimation :=
  { phase := AnimationPhase.matrixRain
  , message := ""
  , decodedChars := 0
  , decodeCompleteTime := none }

def MatrixAnimation.start_authentication (a : MatrixAnimation) : MatrixAnimation :=
  { a with phase := AnimationPhase.authenticating
         , message := "BIOMETRIC SCAN INITIATED..." }

def MatrixAnimation.authentication_success (a : MatrixAnimation) : MatrixAnimation :=
  { a with phase := AnimationPhase.decoding
         , message := "ACCESS GRANTED - DECRYPTING JOURNAL"
         , decodedChars := 0 }

def MatrixAnimation.authentication_failed (a : MatrixAnimation) : MatrixAnimation :=
  { a with phase := AnimationPhase.failed
         , message := "ACCESS DENIED" }

/-- One loop iteration is 50 ms (thread::sleep(Duration::from_millis(50))). -/
def tickMs : Nat := 50

/-- Decoding holds for 3 s after typing completes (Duration::from_secs(3)). -/
def decodeHoldMs : Nat := 3000

/-- The typewriter block of MatrixAnimation::update (matrix.rs 142-148). -/
def decodingTypeTick (a : MatrixAnimation) (now : Nat) : MatrixAnimation :=
  if a.decodedChars < a.message.length then
    { a with decodedChars := min (a.decodedChars + 1) a.message.length }
  else if a.decodeCompleteTime = none then
    { a with decodeCompleteTime := some now }
  else a

/-- The hold-timer block of MatrixAnimation::update (matrix.rs 150-155). -/
def decodingHoldTick (a : MatrixAnimation) (now : Nat) : MatrixAnimation :=
  match a.decodeCompleteTime with
  | some ct =>
      if decodeHoldMs < now - ct then { a with phase := AnimationPhase.success } else a
  | none => a

/-- MatrixAnimation::update (matrix.rs 136-157): outside the Decoding phase
the controller state is untouched (only the rain columns move). -/
def MatrixAnimation.update (a : MatrixAnimation) (now : Nat) : MatrixAnimation :=
  if a.phase = AnimationPhase.decoding then
    decodingHoldTick (decodingTypeTick a now) now
  else a

/-! ## The gate loop (run_matrix_authentication, matrix.rs 160-262) -/

/-- Outcome of the background auth thread: Ok(true), Ok(false) or Err(_). -/
inductive AuthOutcome where
  | okTrue
  | okFalse
  | errResult
deriving DecidableEq, Repr

def authBool : AuthOutcome → Bool
  | AuthOutcome.okTrue => true
  | AuthOutcome.okFalse => false
  | AuthOutcome.errResult => false

/-- Per-iteration observations of the main polling loop: whether the
background thread has finished, and whether an ESC key event is pending. -/
structure TickInput where
  finished : Bool
  esc : Bool
deriving DecidableEq, Repr

/-- States produced by n successive update calls, 50 ms apart. -/
def updateTrace (a : MatrixAnimation) (now : Nat) : Nat → List MatrixAnimation
  | 0 => []
  | n + 1 => a.update now :: updateTrace (a.update now) (now + tickMs) n

/-- Final state after n successive update calls, 50 ms apart. -/
def updateIterN (a : MatrixAnimation) (now : Nat) : Nat → MatrixAnimation
  | 0 => a
  | n + 1 => updateIterN (a.update now) (now + tickMs) n

/-- Inner loop of the Ok(true) arm (matrix.rs 209-213): keeps updating until
the phase reaches Success, then the gate returns true.  The loop never polls
the keyboard, so the tick inputs only meter time.  Returns none when the
supplied timeline is too short to observe termination. -/
def successLoop (a : MatrixAnimation) (now : Nat) :
    List TickInput → Option Bool × List MatrixAnimation
  | [] => (if a.phase = AnimationPhase.success then some true else none, [])
  | _ :: ts =>
      if a.phase = AnimationPhase.success then (some true, [])
      else
        let p := successLoop (a.update now) (now + tickMs) ts
        (p.1, a.update now :: p.2)

/-- Failure display runs for 2 s = 40 ticks (matrix.rs 227-232). -/
def failHoldTicks : Nat := 40

/-- Main polling loop (matrix.rs 197-261).  Each iteration updates the
animation, then checks the background thread, then polls for ESC.  Returns
the gate boolean together with the trace of animation states. -/
def gateLoop (o : AuthOutcome) (a : MatrixAnimation) (now : Nat) :
    List TickInput → Option Bool × List MatrixAnimation
  | [] => (none, [])
  | t :: ts =>
      let a1 := a.update now
      if t.finished then
        if o = AuthOutcome.okTrue then
          let p := successLoop a1.authentication_success (now + tickMs) ts
          (p.1, a1 :: a1.authentication_success :: p.2)
        else
          (some false,
            a1 :: a1.authentication_failed ::
              updateTrace a1.authentication_failed (now + tickMs) failHoldTicks)
      else if t.esc then (some false, [a1])
      else
        let p := gateLoop o a1 (now + tickMs) ts
        (p.1, a1 :: p.2)

/-- The initial rain-only loop runs for 3 s = 60 ticks without polling the
keyboard or the background thread (matrix.rs 190-195). -/
def initialRainTicks : Nat := 60

/-- run_matrix_authentication (matrix.rs 160-262), with the background
thread's eventual outcome o and the per-tick observations ts of the main
loop as environment.  Produces the returned boolean (none when the supplied
timeline ends before the gate returns) and the trace of animation states. -/
def run_matrix_authentication (o : AuthOutcome) (ts : List TickInput) :
    Option Bool × List MatrixAnimation :=
  let a0 := MatrixAnimation.new
  let a1 := a0.start_authentication
  let a2 := updateIterN a1 0 initialRainTicks
  let p := gateLoop o a2 (initialRainTicks * tickMs) ts
  (p.1, a0 :: a1 :: (updateTrace a1 0 initialRainTicks ++ p.2))

/-- The main loop observes a cancellation: some iteration has a pending ESC
event, strictly before any iteration in which the background thread is seen
finished (the thread check precedes the key poll inside one iteration). -/
def cancelledRun : List TickInput → Bool
  | [] => false
  | t :: ts => if t.finished then false else if t.esc then true else cancelledRun ts

/-- Allowed phase successions for consecutive rendered frames of one gate
invocation: stay put, or one of the arrows
Rain→Authenticating→(Decoding→Success | Failed). -/
def allowedStep (p q : AnimationPhase) : Bool :=
  decide (p = q)
  || (decide (p = AnimationPhase.matrixRain) && decide (q = AnimationPhase.authenticating))
  || (decide (p = AnimationPhase.authenticating) && decide (q = AnimationPhase.decoding))
  || (decide (p = AnimationPhase.authenticating) && decide (q = AnimationPhase.failed))
  || (decide (p = AnimationPhase.decoding) && decide (q = AnimationPhase.success))

/-- Reachability invariant of the Decoding data: the typed count never
exceeds the message length, and the completion stamp is only present once
the message is fully typed. -/
def DecInv (a : MatrixAnimation) : Prop :=
  a.decodedChars ≤ a.message.length ∧
    (a.decodeCompleteTime ≠ none → a.decodedChars = a.message.length)

instance (a : MatrixAnimation) : Decidable (DecInv a) := by
  unfold DecInv
  infer_instance

/-! ## Rain column simulator (MatrixColumn, matrix.rs 22-83)

The f32 arithmetic is modelled exactly over the rationals. -/

structure MatrixColumn where
  chars : List Char
  position : Rat
  speed : Rat
  length : Nat
  brightness : List Rat

/-- Oracle for the random draws consumed by one MatrixColumn::update call:
the (conditional) glyph perturbation of lines 67-75 and the fresh position,
speed and trail length drawn on reset (lines 79-81). -/
structure ColumnRand where
  perturbChars : List Char → List Char
  newPosition : Rat
  newSpeed : Rat
  newLength : Nat

/-- MatrixColumn::update (matrix.rs 51-83): advance the fall position, set
each row inside the trailing band to a linear fade and decay every other row
by the factor 0.95, perturb the glyphs, and reset the column once it has
fallen off screen. -/
def MatrixColumn.update (c : MatrixColumn) (r : ColumnRand) : MatrixColumn :=
  let position := c.position + c.speed
  let brightness := (List.range c.brightness.length).map fun (i : Nat) =>
    let rel : Rat := (i : Rat) - position
    if 0 ≤ rel ∧ rel < (c.length : Rat) then 1 - rel / (c.length : Rat)
    else 0.95 * c.brightness.getD i 0
  let chars := r.perturbChars c.chars
  if position > (c.chars.length : Rat) + (c.length : Rat) then
    { chars := chars
    , position := r.newPosition
    , speed := r.newSpeed
    , length := r.newLength
    , brightness := brightness }
  else
    { chars := chars
    , position := position
    , speed := c.speed
    , length := c.length
    , brightness := brightness }

/-! ## Authentication check (src/auth.rs) -/

/-- The non-macOS build of authenticate() (auth.rs 28-32): no credential or
biometric check, unconditionally Ok(true). -/
def authenticate : Except String Bool := Except.ok true

/-- How the gate's match (matrix.rs 204, 223) classifies the value produced
by the background auth_fn. -/
def outcomeOf : Except String Bool → AuthOutcome
  | Except.ok true => AuthOutcome.okTrue
  | Except.ok false => AuthOutcome.okFalse
  | Except.error _ => AuthOutcome.errResult

/-! ## Vault manager and credential store (src/volume.rs)

External processes are modelled by the Cmd they are spawned with and a
ProcOutput describing their observed exit; filesystem facts (is the mount
point present, does the source directory exist, which entries it holds) are
supplied by the environment, matching the re-derive-from-filesystem design. -/

/-- A spawned external process: program, argument list, and the data piped
to its standard input (none when stdin is not piped). -/
structure Cmd where
  program : String
  args : List String
  stdinData : Option String
deriving DecidableEq, Repr

/-- Captured outcome of a spawned process. -/
structure ProcOutput where
  success : Bool
  stdout : String
  stderr : String
deriving DecidableEq, Repr

/-- VolumeManager::new (volume.rs 15-26), with the home directory as a
parameter in place of dirs::home_dir(). -/
structure VolumeManager where
  dmg_path : String
  volume_name : String
  mount_point : String
deriving DecidableEq, Repr

def VolumeManager.new (homeDir : String) : VolumeManager :=
  { dmg_path := homeDir ++ "/.journal/vault.dmg"
  , volume_name := "JournalVault"
  , mount_point := "/Volumes/JournalVault" }

/-- hdiutil create invocation of create_encrypted_volume (volume.rs 49-69):
the password travels on the piped stdin (write! without newline). -/
def hdiutilCreateCmd (vm : VolumeManager) (password : String) : Cmd :=
  { program := "hdiutil"
  , args := ["create", "-size", "100m", "-fs", "APFS", "-encryption", "AES-256",
             "-stdinpass", "-volname", vm.volume_name, vm.dmg_path]
  , stdinData := some password }

/-- hdiutil attach invocation of mount_with_password (volume.rs 111-125):
the password travels on the piped stdin (writeln!, so with a newline). -/
def hdiutilAttachCmd (vm : VolumeManager) (password : String) : Cmd :=
  { program := "hdiutil"
  , args := ["attach", vm.dmg_path, "-stdinpass"]
  , stdinData := some (password ++ "\n") }

/-- hdiutil detach invocation of unmount (volume.rs 152-168). -/
def hdiutilDetachCmd (vm : VolumeManager) (force : Bool) : Cmd :=
  { program := "hdiutil"
  , args := ["detach", vm.mount_point] ++ (if force then ["-force"] else [])
  , stdinData := none }

/-- security add-generic-password invocation of save_password_to_keychain
(volume.rs 180-189): note the password appears as the -w argument. -/
def securityAddCmd (password : String) : Cmd :=
  { program := "security"
  , args := ["add-generic-password", "-a", "journal-tui", "-s", "JournalVault",
             "-w", password, "-U", "-T", "/usr/bin/security"]
  , stdinData := none }

/-- security find-generic-password invocation of get_password_from_keychain
(volume.rs 200-207). -/
def securityFindCmd : Cmd :=
  { program := "security"
  , args := ["find-generic-password", "-a", "journal-tui", "-s", "JournalVault", "-w"]
  , stdinData := none }

/-- mount_with_password (volume.rs 106-135): idempotent when already
mounted, otherwise one attach invocation whose non-zero exit becomes a
Mount error carrying the captured stderr.  Returns the result together with
the list of spawned processes. -/
def VolumeManager.mount_with_password (vm : VolumeManager) (mounted : Bool)
    (attachOut : ProcOutput) (password : String) :
    Except String Unit × List Cmd :=
  if mounted then (Except.ok (), [])
  else
    ( if attachOut.success then Except.ok ()
      else Except.error ("Failed to mount volume: " ++ attachOut.stderr)
    , [hdiutilAttachCmd vm password] )

/-- unmount (volume.rs 147-176): no-op when not mounted; graceful detach,
escalating to a forced detach on non-zero exit; an Unmount error carrying
the graceful attempt's stderr only when both detaches fail. -/
def VolumeManager.unmount (vm : VolumeManager) (mounted : Bool)
    (graceful forced : ProcOutput) : Except String Unit × List Cmd :=
  if mounted then
    if graceful.success then (Except.ok (), [hdiutilDetachCmd vm false])
    else if forced.success then
      (Except.ok (), [hdiutilDetachCmd vm false, hdiutilDetachCmd vm true])
    else
      ( Except.error ("Failed to unmount volume: " ++ graceful.stderr)
      , [hdiutilDetachCmd vm false, hdiutilDetachCmd vm true] )
  else (Except.ok (), [])

/-! ### Credential store

The secure-storage tool itself is outside the repository.  Modelled from
the spec: an OS-provided secure-storage utility supporting add/find generic
password keyed by a service/account pair, where add with -U overwrites any
prior entry for the pair and find prints the stored password exactly when an
entry for the pair exists, failing with a non-zero exit otherwise. -/

/-- The keychain contents: stored passwords keyed by (account, service). -/
abbrev Keychain : Type := List ((String × String) × String)

/-- Modelled from the spec: security add-generic-password -U replaces any
prior entry for the same (account, service) pair. -/
def securityAddGeneric (store : Keychain) (account service password : String) :
    Keychain :=
  ((account, service), password) ::
    List.filter (fun e => !(e.1 == (account, service))) store

/-- Modelled from the spec: security find-generic-password -w prints the
stored password on success and exits non-zero when no entry exists. -/
def securityFindGeneric (store : Keychain) (account service : String) :
    ProcOutput :=
  match (List.find? (fun e => e.1 == (account, service)) store).map Prod.snd with
  | some pw => { success := true, stdout := pw ++ "\n", stderr := "" }
  | none => { success := false, stdout := "", stderr := "item not found" }

/-- The password stored for the fixed journal-tui/JournalVault pair. -/
def keyLookup (store : Keychain) : Option String :=
  (List.find? (fun e => e.1 == ("journal-tui", "JournalVault")) store).map Prod.snd

/-- Result of a credential-store operation: the operation's return value,
the keychain contents afterwards, and the processes spawned. -/
structure KeychainOp (α : Type) where
  result : Except String α
  store : Keychain
  cmds : List Cmd

/-- save_password_to_keychain (volume.rs 178-197), run against the modelled
keychain (where the add always succeeds). -/
def VolumeManager.save_password_to_keychain (vm : VolumeManager)
    (store : Keychain) (password : String) : KeychainOp Unit :=
  { result := Except.ok ()
  , store := securityAddGeneric store "journal-tui" "JournalVault" password
  , cmds := [securityAddCmd password] }

/-- get_password_from_keychain (volume.rs 199-218): any non-zero exit of the
find command becomes the fixed "Password not found in keychain" error;
on success the trimmed stdout is returned. -/
def VolumeManager.get_password_from_keychain (vm : VolumeManager)
    (store : Keychain) : KeychainOp String :=
  let out := securityFindGeneric store "journal-tui" "JournalVault"
  { result :=
      if !out.success then Except.error "Password not found in keychain"
      else Except.ok out.stdout.trim
  , store := store
  , cmds := [securityFindCmd] }

/-- Environment observed by one create_encrypted_volume run: outcome of the
create command, mount state and attach outcome for the setup mount, mount
state and detach outcomes for the setup unmount. -/
structure VaultEnv where
  createOut : ProcOutput
  mountedAtMount : Bool
  attachOut : ProcOutput
  mountedAtUnmount : Bool
  detachOut : ProcOutput
  forceOut : ProcOutput
deriving DecidableEq, Repr

/-- create_encrypted_volume (volume.rs 40-92) with the generated random
password supplied as an oracle parameter: create the DMG (password piped),
mount once to materialize the entries directory, unmount, then save the
password to the keychain.  Returns the result, the spawned processes in
order, and the keychain contents afterwards. -/
def VolumeManager.create_encrypted_volume (vm : VolumeManager) (env : VaultEnv)
    (store : Keychain) (password : String) :
    Except String Unit × List Cmd × Keychain :=
  let c := hdiutilCreateCmd vm password
  if !env.createOut.success then
    ( Except.error ("Failed to create encrypted volume: " ++ env.createOut.stderr)
    , [c], store )
  else
    let m := vm.mount_with_password env.mountedAtMount env.attachOut password
    match m.1 with
    | Except.error e => (Except.error e, c :: m.2, store)
    | Except.ok _ =>
        let u := vm.unmount env.mountedAtUnmount env.detachOut env.forceOut
        match u.1 with
        | Except.error e => (Except.error e, c :: (m.2 ++ u.2), store)
        | Except.ok _ =>
            let s := vm.save_password_to_keychain store password
            (s.result, c :: (m.2 ++ u.2 ++ s.cmds), s.store)

/-- A directory entry of the migration source, with the extension as
reported by Path::extension. -/
structure SourceEntry where
  name : String
  ext : Option String
deriving DecidableEq, Repr

def isMdEntry (e : SourceEntry) : Bool := e.ext == some "md"

/-- The copy loop of migrate_entries (volume.rs 228-241): copies each entry
with the md extension and counts the copies. -/
def migrateLoop : List SourceEntry → Nat × List SourceEntry
  | [] => (0, [])
  | e :: es =>
      if isMdEntry e then
        let p := migrateLoop es
        (p.1 + 1, e :: p.2)
      else migrateLoop es

/-- migrate_entries (volume.rs 220-245): error when not mounted; otherwise
the destination entries directory is created, a missing source directory
yields zero entries, and every md entry of an existing source directory is
copied.  Returns (result, copies performed, destination directory created). -/
def VolumeManager.migrate_entries (vm : VolumeManager) (mounted : Bool)
    (sourceDirPresent : Bool) (entries : List SourceEntry) :
    Except String Nat × List SourceEntry × Bool :=
  if mounted then
    let p := if sourceDirPresent then migrateLoop entries else (0, [])
    (Except.ok p.1, p.2, true)
  else (Except.error "Volume must be mounted before migration", [], false)

/-! ## Helper lemmas -/

/-- Outside the Decoding phase, update leaves the controller state alone. -/
theorem update_of_ne_decoding (a : MatrixAnimation) (now : Nat)
    (h : a.phase ≠ AnimationPhase.decoding) : a.update now = a := by
  simp [MatrixAnimation.update, h]

theorem decodingTypeTick_phase (a : MatrixAnimation) (now : Nat) :
    (decodingTypeTick a now).phase = a.phase := by
  unfold decodingTypeTick
  split
  · rfl
  · split <;> rfl

theorem decodingHoldTick_phase (a : MatrixAnimation) (now : Nat) :
    (decodingHoldTick a now).phase = a.phase ∨
      (decodingHoldTick a now).phase = AnimationPhase.success := by
  unfold decodingHoldTick
  split
  · split
    · right; rfl
    · left; rfl
  · left; rfl

/-- update either keeps the phase or performs the Decoding→Success arrow. -/
theorem update_phase_eq_or (a : MatrixAnimation) (now : Nat) :
    (a.update now).phase = a.phase ∨
      (a.phase = AnimationPhase.decoding ∧
        (a.update now).phase = AnimationPhase.success) := by
  by_cases h : a.phase = AnimationPhase.decoding
  · rcases decodingHoldTick_phase (decodingTypeTick a now) now with h2 | h2
    · left
      unfold MatrixAnimation.update
      rw [if_pos h, h2, decodingTypeTick_phase]
    · right
      refine ⟨h, ?_⟩
      unfold MatrixAnimation.update
      rw [if_pos h]
      exact h2
  · left
    rw [update_of_ne_decoding a now h]

theorem allowedStep_refl (p : AnimationPhase) : allowedStep p p = true := by
  simp [allowedStep]

def StepOk (p q : AnimationPhase) : Prop := allowedStep p q = true

theorem step_update_allowed (a : MatrixAnimation) (now : Nat) :
    StepOk a.phase ((a.update now).phase) := by
  rcases update_phase_eq_or a now with h | ⟨h1, h2⟩
  · rw [StepOk, h]
    exact allowedStep_refl _
  · rw [StepOk, h1, h2]
    rfl

theorem updateTrace_const (a : MatrixAnimation)
    (h : a.phase ≠ AnimationPhase.decoding) :
    ∀ (n : Nat) (now : Nat), updateTrace a now n = List.replicate n a := by
  intro n
  induction n with
  | zero => intro now; rfl
  | succ k ih =>
      intro now
      simp only [updateTrace, update_of_ne_decoding a now h, ih, List.replicate]

theorem updateIterN_const (a : MatrixAnimation)
    (h : a.phase ≠ AnimationPhase.decoding) :
    ∀ (n : Nat) (now : Nat), updateIterN a now n = a := by
  intro n
  induction n with
  | zero => intro now; rfl
  | succ k ih =>
      intro now
      simp only [updateIterN, update_of_ne_decoding a now h, ih]

/-- The success loop can only ever return true. -/
theorem successLoop_fst : ∀ (ts : List TickInput) (a : MatrixAnimation)
    (now : Nat) (b : Bool), (successLoop a now ts).1 = some b → b = true := by
  intro ts
  induction ts with
  | nil =>
      intro a now b h
      simp only [successLoop] at h
      split at h
      · exact (Option.some.inj h).symm
      · exact absurd h (by simp)
  | cons t ts ih =>
      intro a now b h
      simp only [successLoop] at h
      split at h
      · exact (Option.some.inj h).symm
      · exact ih (a.update now) (now + tickMs) b h

/-- The main loop returns the auth boolean on a finished background thread
and false on an observed cancellation. -/
theorem gateLoop_fst (o : AuthOutcome) : ∀ (ts : List TickInput)
    (a : MatrixAnimation) (now : Nat) (b : Bool),
    (gateLoop o a now ts).1 = some b →
      (cancelledRun ts = true ∧ b = false) ∨
        (cancelledRun ts = false ∧ b = authBool o) := by
  intro ts
  induction ts with
  | nil =>
      intro a now b h
      exact absurd h (by simp [gateLoop])
  | cons t ts ih =>
      intro a now b h
      simp only [gateLoop] at h
      by_cases hf : t.finished = true
      · rw [if_pos hf] at h
        by_cases ho : o = AuthOutcome.okTrue
        · rw [if_pos ho] at h
          simp only at h
          have hb := successLoop_fst ts _ _ b h
          right
          refine ⟨by simp [cancelledRun, hf], ?_⟩
          rw [hb, ho]
          rfl
        · rw [if_neg ho] at h
          simp only at h
          right
          refine ⟨by simp [cancelledRun, hf], ?_⟩
          have hb : b = false := by
            have := Option.some.inj h
            exact this.symm
          rw [hb]
          cases o with
          | okTrue => exact absurd rfl ho
          | okFalse => rfl
          | errResult => rfl
      · rw [if_neg hf] at h
        by_cases he : t.esc = true
        · rw [if_pos he] at h
          simp only at h
          left
          refine ⟨by simp [cancelledRun, hf, he], ?_⟩
          exact (Option.some.inj h).symm
        · rw [if_neg he] at h
          simp only at h
          have := ih (a.update now) (now + tickMs) b h
          simpa [cancelledRun, hf, he] using this

/-- An observed cancellation makes the main loop return false at once. -/
theorem gateLoop_cancel (o : AuthOutcome) : ∀ (ts : List TickInput)
    (a : MatrixAnimation) (now : Nat), cancelledRun ts = true →
    (gateLoop o a now ts).1 = some false := by
  intro ts
  induction ts with
  | nil => intro a now h; exact absurd h (by simp [cancelledRun])
  | cons t ts ih =>
      intro a now h
      simp only [cancelledRun] at h
      by_cases hf : t.finished = true
      · rw [if_pos hf] at h
        exact absurd h (by simp)
      · rw [if_neg hf] at h
        simp only [gateLoop, if_neg hf]
        by_cases he : t.esc = true
        · rw [if_pos he]
        · rw [if_neg he] at h
          rw [if_neg he]
          exact ih (a.update now) (now + tickMs) h

/-- The gate's returned boolean equals the main loop's. -/
theorem run_fst (o : AuthOutcome) (ts : List TickInput) :
    (run_matrix_authentication o ts).1 =
      (gateLoop o (updateIterN (MatrixAnimation.new.start_authentication) 0
        initialRainTicks) (initialRainTicks * tickMs) ts).1 := rfl

theorem chain_updateTrace : ∀ (n : Nat) (a : MatrixAnimation) (now : Nat),
    List.Chain StepOk a.phase ((updateTrace a now n).map (fun s => s.phase)) := by
  intro n
  induction n with
  | zero => intro a now; exact List.Chain.nil
  | succ k ih =>
      intro a now
      simp only [updateTrace, List.map_cons]
      exact List.Chain.cons (step_update_allowed a now) (ih (a.update now) (now + tickMs))

theorem chain_successLoop : ∀ (ts : List TickInput) (a : MatrixAnimation) (now : Nat),
    List.Chain StepOk a.phase (((successLoop a now ts).2).map (fun s => s.phase)) := by
  intro ts
  induction ts with
  | nil =>
      intro a now
      simp only [successLoop]
      exact List.Chain.nil
  | cons t ts ih =>
      intro a now
      simp only [successLoop]
      split
      · exact List.Chain.nil
      · simp only [List.map_cons]
        exact List.Chain.cons (step_update_allowed a now) (ih (a.update now) (now + tickMs))

theorem chain_gateLoop (o : AuthOutcome) : ∀ (ts : List TickInput)
    (a : MatrixAnimation) (now : Nat), a.phase = AnimationPhase.authenticating →
    List.Chain StepOk a.phase (((gateLoop o a now ts).2).map (fun s => s.phase)) := by
  intro ts
  induction ts with
  | nil => intro a now _; exact List.Chain.nil
  | cons t ts ih =>
      intro a now ha
      have hne : a.phase ≠ AnimationPhase.decoding := by rw [ha]; intro hc; cases hc
      have ha1 : a.update now = a := update_of_ne_decoding a now hne
      simp only [gateLoop]
      by_cases hf : t.finished = true
      · rw [if_pos hf]
        by_cases ho : o = AuthOutcome.okTrue
        · rw [if_pos ho]
          simp only [List.map_cons, ha1]
          refine List.Chain.cons (by rw [ha]; exact allowedStep_refl _) ?_
          refine List.Chain.cons
            (by rw [ha]
                exact (by rfl :
                  StepOk AnimationPhase.authenticating AnimationPhase.decoding)) ?_
          have := chain_successLoop ts (a.authentication_success) (now + tickMs)
          simpa [MatrixAnimation.authentication_success] using this
        · rw [if_neg ho]
          simp only [List.map_cons, ha1]
          refine List.Chain.cons (by rw [ha]; exact allowedStep_refl _) ?_
          refine List.Chain.cons
            (by rw [ha]
                exact (by rfl :
                  StepOk AnimationPhase.authenticating AnimationPhase.failed)) ?_
          have := chain_updateTrace failHoldTicks (a.authentication_failed) (now + tickMs)
          simpa [MatrixAnimation.authentication_failed] using this
      · rw [if_neg hf]
        by_cases he : t.esc = true
        · rw [if_pos he]
          simp only [List.map_cons, ha1, List.map_nil]
          exact List.Chain.cons (by rw [ha]; exact allowedStep_refl _) List.Chain.nil
        · rw [if_neg he]
          simp only [List.map_cons, ha1]
          exact List.Chain.cons (by rw [ha]; exact allowedStep_refl _)
            (ih a (now + tickMs) ha)

theorem chain_replicate_append (x : AnimationPhase) (hx : StepOk x x) :
    ∀ (n : Nat) (l : List AnimationPhase), List.Chain StepOk x l →
    List.Chain StepOk x (List.replicate n x ++ l) := by
  intro n
  induction n with
  | zero => intro l hl; exact hl
  | succ k ih =>
      intro l hl
      simp only [List.replicate, List.cons_append]
      exact List.Chain.cons hx (ih l hl)

/-- Every state of the success loop stays within Decoding/Success. -/
theorem successLoop_phase_mem : ∀ (ts : List TickInput) (a : MatrixAnimation)
    (now : Nat), (a.phase = AnimationPhase.decoding ∨ a.phase = AnimationPhase.success) →
    ∀ x ∈ (successLoop a now ts).2,
      x.phase = AnimationPhase.decoding ∨ x.phase = AnimationPhase.success := by
  intro ts
  induction ts with
  | nil =>
      intro a now _ x hx
      simp only [successLoop] at hx
      exact absurd hx (by simp)
  | cons t ts ih =>
      intro a now ha x hx
      have hupd : (a.update now).phase = AnimationPhase.decoding ∨
          (a.update now).phase = AnimationPhase.success := by
        rcases update_phase_eq_or a now with h | ⟨_, h⟩
        · rw [h]; exact ha
        · right; exact h
      simp only [successLoop] at hx
      split at hx
      · exact absurd hx (by simp)
      · simp only [List.mem_cons] at hx
        rcases hx with hx | hx
        · rw [hx]; exact hupd
        · exact ih (a.update now) (now + tickMs) hupd x hx

/-- Without a true background result the main loop never shows Decoding. -/
theorem gateLoop_no_decoding (o : AuthOutcome) (ho : o ≠ AuthOutcome.okTrue) :
    ∀ (ts : List TickInput) (a : MatrixAnimation) (now : Nat),
    a.phase = AnimationPhase.authenticating →
    AnimationPhase.decoding ∉ ((gateLoop o a now ts).2).map (fun s => s.phase) := by
  intro ts
  induction ts with
  | nil => intro a now _; simp [gateLoop]
  | cons t ts ih =>
      intro a now ha
      have hne : a.phase ≠ AnimationPhase.decoding := by rw [ha]; intro hc; cases hc
      have ha1 : a.update now = a := update_of_ne_decoding a now hne
      simp only [gateLoop]
      by_cases hf : t.finished = true
      · rw [if_pos hf, if_neg ho]
        have hfail : (a.authentication_failed).phase ≠ AnimationPhase.decoding := by
          intro hc; cases hc
        simp only [ha1]
        rw [updateTrace_const (a.authentication_failed) hfail]
        simp [ha, List.mem_replicate, MatrixAnimation.authentication_failed]
      · rw [if_neg hf]
        by_cases he : t.esc = true
        · rw [if_pos he]
          simp [ha1, ha]
        · rw [if_neg he]
          simp only [List.map_cons, List.mem_cons, ha1]
          intro hc
          rcases hc with hc | hc
          · rw [ha] at hc; cases hc
          · exact ih a (now + tickMs) ha hc

/-- With a true background result the main loop never shows Failed. -/
theorem gateLoop_no_failed (o : AuthOutcome) (ho : o = AuthOutcome.okTrue) :
    ∀ (ts : List TickInput) (a : MatrixAnimation) (now : Nat),
    a.phase = AnimationPhase.authenticating →
    AnimationPhase.failed ∉ ((gateLoop o a now ts).2).map (fun s => s.phase) := by
  intro ts
  induction ts with
  | nil => intro a now _; simp [gateLoop]
  | cons t ts ih =>
      intro a now ha
      have hne : a.phase ≠ AnimationPhase.decoding := by rw [ha]; intro hc; cases hc
      have ha1 : a.update now = a := update_of_ne_decoding a now hne
      simp only [gateLoop]
      by_cases hf : t.finished = true
      · rw [if_pos hf, if_pos ho]
        simp only [List.map_cons, List.mem_cons, ha1]
        intro hc
        rcases hc with hc | hc
        · rw [ha] at hc; cases hc
        · rcases hc with hc | hc
          · simp [MatrixAnimation.authentication_success] at hc
          · simp only [List.mem_map] at hc
            obtain ⟨x, hx, hxp⟩ := hc
            have := successLoop_phase_mem ts (a.authentication_success) (now + tickMs)
              (Or.inl rfl) x hx
            rcases this with h2 | h2 <;> rw [hxp] at h2 <;> cases h2
      · rw [if_neg hf]
        by_cases he : t.esc = true
        · rw [if_pos he]
          simp [ha1, ha]
        · rw [if_neg he]
          simp only [List.map_cons, List.mem_cons, ha1]
          intro hc
          rcases hc with hc | hc
          · rw [ha] at hc; cases hc
          · exact ih a (now + tickMs) ha hc

/-- The success loop ignores its tick inputs except for their number. -/
theorem successLoop_len_congr : ∀ (ts ts2 : List TickInput), ts.length = ts2.length →
    ∀ (a : MatrixAnimation) (now : Nat), successLoop a now ts = successLoop a now ts2 := by
  intro ts
  induction ts with
  | nil =>
      intro ts2 hlen a now
      cases ts2 with
      | nil => rfl
      | cons u us => exact absurd hlen (by simp)
  | cons t ts ih =>
      intro ts2 hlen a now
      cases ts2 with
      | nil => exact absurd hlen (by simp)
      | cons u us =>
          simp only [List.length_cons, Nat.succ.injEq] at hlen
          simp only [successLoop]
          rw [ih us hlen (a.update now) (now + tickMs)]

/-- Shape of update while typing is still in progress. -/
theorem update_decoding_typing (a : MatrixAnimation) (now : Nat)
    (hp : a.phase = AnimationPhase.decoding)
    (hlt : a.decodedChars < a.message.length)
    (hnone : a.decodeCompleteTime = none) :
    a.update now =
      { a with decodedChars := min (a.decodedChars + 1) a.message.length } := by
  unfold MatrixAnimation.update decodingHoldTick decodingTypeTick
  rw [if_pos hp, if_pos hlt]
  simp [hnone]

/-- Shape of update on the tick that records typing completion. -/
theorem update_decoding_setct (a : MatrixAnimation) (now : Nat)
    (hp : a.phase = AnimationPhase.decoding)
    (hge : ¬ a.decodedChars < a.message.length)
    (hnone : a.decodeCompleteTime = none) :
    a.update now = { a with decodeCompleteTime := some now } := by
  unfold MatrixAnimation.update decodingHoldTick decodingTypeTick
  rw [if_pos hp, if_neg hge, if_pos hnone]
  simp [Nat.sub_self]

/-- Shape of update once the completion stamp exists. -/
theorem update_decoding_hold (a : MatrixAnimation) (now ct : Nat)
    (hp : a.phase = AnimationPhase.decoding)
    (hge : ¬ a.decodedChars < a.message.length)
    (hct : a.decodeCompleteTime = some ct) :
    a.update now =
      if decodeHoldMs < now - ct then { a with phase := AnimationPhase.success }
      else a := by
  unfold MatrixAnimation.update decodingHoldTick decodingTypeTick
  rw [if_pos hp, if_neg hge, if_neg (by simp [hct])]
  simp [hct]

/-! ## Claims -/

/-- C1: for every auth_fn, the boolean returned by
run_matrix_authentication(auth_fn) is exactly the boolean produced by
auth_fn (true on Ok(true); false on Ok(false) or on an error), except that
an observed cancellation key always makes the gate return false regardless
of auth_fn's eventual outcome. -/
theorem C1_gate_returns_auth_bool (o : AuthOutcome) (ts : List TickInput) :
    (cancelledRun ts = true → (run_matrix_authentication o ts).1 = some false)
    ∧ ∀ b : Bool, (run_matrix_authentication o ts).1 = some b →
        (cancelledRun ts = true ∧ b = false)
        ∨ (cancelledRun ts = false ∧ b = authBool o) := by
  constructor
  · intro h
    rw [run_fst]
    exact gateLoop_cancel o ts _ _ h
  · intro b h
    rw [run_fst] at h
    exact gateLoop_fst o ts _ _ b h

theorem C1_gate_returns_auth_bool_witness :
    cancelledRun [TickInput.mk false true] = true
    ∧ (run_matrix_authentication AuthOutcome.okFalse [TickInput.mk false true]).1
        = some false
    ∧ ((cancelledRun [TickInput.mk false true] = true ∧ false = false)
        ∨ (cancelledRun [TickInput.mk false true] = false
            ∧ false = authBool AuthOutcome.okFalse)) :=
  ⟨by decide,
   (C1_gate_returns_auth_bool AuthOutcome.okFalse [TickInput.mk false true]).1
     (by decide),
   (C1_gate_returns_auth_bool AuthOutcome.okFalse [TickInput.mk false true]).2
     false (by decide)⟩

/-- C3 counterexample: with a true background result, ESC pressed on every
tick of the Decoding phase does not make the gate return false — the gate
still returns true, because the Decoding inner loop never polls the
keyboard (matrix.rs 209-213). -/
theorem C3_counterexample :
    (run_matrix_authentication AuthOutcome.okTrue
      (TickInput.mk true false :: List.replicate 100 (TickInput.mk false true))).1
      = some true := by decide

/-- C3 (amended): a cancellation key observed by the main polling loop
(Authenticating phase, after the initial rain window) makes the gate return
false in that same 50 ms tick, regardless of everything that follows; but
during the Decoding phase keys are not polled at all — the Decoding inner
loop's behaviour depends only on how many ticks elapse, not on any key
event. -/
theorem C3_cancellation_only_in_main_loop :
    (∀ (o : AuthOutcome) (a : MatrixAnimation) (now : Nat) (t : TickInput)
        (ts : List TickInput), t.finished = false → t.esc = true →
        (gateLoop o a now (t :: ts)).1 = some false)
    ∧ (∀ (a : MatrixAnimation) (now : Nat) (ts ts2 : List TickInput),
        ts.length = ts2.length → successLoop a now ts = successLoop a now ts2) := by
  constructor
  · intro o a now t ts hf he
    simp [gateLoop, hf, he]
  · intro a now ts ts2 h
    exact successLoop_len_congr ts ts2 h a now

theorem C3_cancellation_only_in_main_loop_witness :
    (TickInput.mk false true).finished = false
    ∧ (TickInput.mk false true).esc = true
    ∧ (gateLoop AuthOutcome.okFalse MatrixAnimation.new 0
        [TickInput.mk false true]).1 = some false
    ∧ successLoop MatrixAnimation.new 0 [] = successLoop MatrixAnimation.new 0 [] :=
  ⟨rfl, rfl,
   C3_cancellation_only_in_main_loop.1 AuthOutcome.okFalse MatrixAnimation.new 0
     (TickInput.mk false true) [] rfl rfl,
   C3_cancellation_only_in_main_loop.2 MatrixAnimation.new 0 [] [] rfl⟩

/-- C4: for any auth_fn and any state reached during a gate invocation,
phase transitions follow exactly Rain→Authenticating→(Decoding→Success |
Failed): the rendered phase sequence is a chain of allowed steps starting
Rain, Authenticating; Decoding appears only when the background result was
Ok(true); Failed only when it was Ok(false) or an error; and the Failed and
Success phases are terminal under update. -/
theorem C4_phase_machine (o : AuthOutcome) (ts : List TickInput) :
    List.Chain' StepOk (((run_matrix_authentication o ts).2).map (fun s => s.phase))
    ∧ ((((run_matrix_authentication o ts).2).map (fun s => s.phase)).take 2
        = [AnimationPhase.matrixRain, AnimationPhase.authenticating])
    ∧ (AnimationPhase.decoding ∈
        ((run_matrix_authentication o ts).2).map (fun s => s.phase) →
        o = AuthOutcome.okTrue)
    ∧ (AnimationPhase.failed ∈
        ((run_matrix_authentication o ts).2).map (fun s => s.phase) →
        authBool o = false)
    ∧ (∀ (a : MatrixAnimation) (now : Nat),
        (a.phase = AnimationPhase.failed →
          (a.update now).phase = AnimationPhase.failed)
        ∧ (a.phase = AnimationPhase.success →
          (a.update now).phase = AnimationPhase.success)) := by
  have ha1 : (MatrixAnimation.new.start_authentication).phase
      = AnimationPhase.authenticating := rfl
  have hne1 : (MatrixAnimation.new.start_authentication).phase
      ≠ AnimationPhase.decoding := by rw [ha1]; intro hc; cases hc
  have ha2 : updateIterN (MatrixAnimation.new.start_authentication) 0 initialRainTicks
      = MatrixAnimation.new.start_authentication :=
    updateIterN_const _ hne1 _ _
  have hpre : updateTrace (MatrixAnimation.new.start_authentication) 0 initialRainTicks
      = List.replicate initialRainTicks (MatrixAnimation.new.start_authentication) :=
    updateTrace_const _ hne1 _ _
  have hphase2 : (updateIterN (MatrixAnimation.new.start_authentication) 0
      initialRainTicks).phase = AnimationPhase.authenticating := by
    rw [ha2]; exact ha1
  have hchain := chain_gateLoop o ts
    (updateIterN (MatrixAnimation.new.start_authentication) 0 initialRainTicks)
    (initialRainTicks * tickMs) hphase2
  refine ⟨?_, rfl, ?_, ?_, ?_⟩
  · have hnew : MatrixAnimation.new.phase = AnimationPhase.matrixRain := rfl
    simp only [run_matrix_authentication, List.map_cons, List.map_append, hpre,
      List.map_replicate, ha1, hnew]
    rw [List.chain'_cons]
    refine ⟨by rfl, ?_⟩
    show List.Chain StepOk AnimationPhase.authenticating _
    refine chain_replicate_append _ (by rfl) _ _ ?_
    rw [hphase2] at hchain
    exact hchain
  · intro hmem
    by_contra ho
    have hnd := gateLoop_no_decoding o ho ts
      (updateIterN (MatrixAnimation.new.start_authentication) 0 initialRainTicks)
      (initialRainTicks * tickMs) hphase2
    simp only [run_matrix_authentication, List.map_cons, List.map_append, hpre,
      List.map_replicate, List.mem_cons, List.mem_append, List.mem_replicate] at hmem
    rcases hmem with h | h | h | h
    · cases h
    · cases h
    · cases h.2
    · exact hnd h
  · intro hmem
    by_contra hb
    have ho : o = AuthOutcome.okTrue := by
      cases o with
      | okTrue => rfl
      | okFalse => exact absurd rfl hb
      | errResult => exact absurd rfl hb
    have hnf := gateLoop_no_failed o ho ts
      (updateIterN (MatrixAnimation.new.start_authentication) 0 initialRainTicks)
      (initialRainTicks * tickMs) hphase2
    simp only [run_matrix_authentication, List.map_cons, List.map_append, hpre,
      List.map_replicate, List.mem_cons, List.mem_append, List.mem_replicate] at hmem
    rcases hmem with h | h | h | h
    · cases h
    · cases h
    · cases h.2
    · exact hnf h
  · intro a now
    constructor
    · intro h
      rw [update_of_ne_decoding a now (by rw [h]; intro hc; cases hc)]
      exact h
    · intro h
      rw [update_of_ne_decoding a now (by rw [h]; intro hc; cases hc)]
      exact h

theorem C4_phase_machine_witness :
    AuthOutcome.okTrue = AuthOutcome.okTrue
    ∧ authBool AuthOutcome.okFalse = false
    ∧ ((MatrixAnimation.new.authentication_failed).update 0).phase
        = AnimationPhase.failed :=
  ⟨(C4_phase_machine AuthOutcome.okTrue
      (TickInput.mk true false :: List.replicate 100 (TickInput.mk false false))).2.2.1
      (by decide),
   (C4_phase_machine AuthOutcome.okFalse [TickInput.mk true false]).2.2.2.1
      (by decide),
   ((C4_phase_machine AuthOutcome.okFalse []).2.2.2.2
      MatrixAnimation.new.authentication_failed 0).1 rfl⟩

/-- C5: on non-macOS targets authenticate() is unconditionally Ok(true), so
the gate invoked with auth::authenticate (main.rs 185) can only return true
whenever it returns at all without an observed cancellation — no credential
or biometric check is performed. -/
theorem C5_non_macos_always_grants :
    authenticate = Except.ok true
    ∧ outcomeOf authenticate = AuthOutcome.okTrue
    ∧ ∀ (ts : List TickInput) (b : Bool), cancelledRun ts = false →
        (run_matrix_authentication (outcomeOf authenticate) ts).1 = some b →
        b = true := by
  refine ⟨rfl, rfl, ?_⟩
  intro ts b hc h
  rw [run_fst] at h
  rcases gateLoop_fst (outcomeOf authenticate) ts _ _ b h with ⟨h1, _⟩ | ⟨_, h2⟩
  · rw [h1] at hc; cases hc
  · rw [h2]; rfl

theorem C5_non_macos_always_grants_witness :
    cancelledRun (TickInput.mk true false :: List.replicate 100
      (TickInput.mk false false)) = false
    ∧ true = true :=
  ⟨by decide,
   C5_non_macos_always_grants.2.2
     (TickInput.mk true false :: List.replicate 100 (TickInput.mk false false))
     true (by decide) (by decide)⟩

/-- C9: in the Decoding phase each update tick increments the typed count by
exactly one character, capped at the message length, until the whole message
is typed; the phase advances to Success only when the message is fully
typed, the completion stamp exists, and more than the 3-second hold has
elapsed since it — so Success comes at least 3 time units after full
typing.  The DecInv hypothesis is the reachability invariant, established by
MatrixAnimation.new and by authentication_success and preserved by update. -/
theorem C9_typewriter_and_hold (a : MatrixAnimation) (now : Nat)
    (hinv : DecInv a) :
    DecInv (a.update now)
    ∧ (a.phase = AnimationPhase.decoding → a.decodedChars < a.message.length →
        (a.update now).decodedChars = a.decodedChars + 1
        ∧ (a.update now).decodedChars ≤ a.message.length
        ∧ (a.update now).phase = AnimationPhase.decoding)
    ∧ (a.phase = AnimationPhase.decoding →
        (a.update now).phase = AnimationPhase.success →
        a.decodedChars = a.message.length
        ∧ ∃ ct, a.decodeCompleteTime = some ct ∧ decodeHoldMs < now - ct)
    ∧ DecInv MatrixAnimation.new
    ∧ (a.decodeCompleteTime = none → DecInv (a.authentication_success)) := by
  have hc4 : DecInv MatrixAnimation.new := by decide
  have hc5 : a.decodeCompleteTime = none → DecInv (a.authentication_success) :=
    fun h2 => ⟨Nat.zero_le _, fun hne => absurd h2 hne⟩
  by_cases hp : a.phase = AnimationPhase.decoding
  · by_cases hlt : a.decodedChars < a.message.length
    · have hnone : a.decodeCompleteTime = none := by
        cases hctv : a.decodeCompleteTime with
        | none => rfl
        | some ct =>
            have := hinv.2 (by rw [hctv]; intro hc; cases hc)
            rw [this] at hlt
            exact absurd hlt (lt_irrefl _)
      have hshape := update_decoding_typing a now hp hlt hnone
      have hmin : min (a.decodedChars + 1) a.message.length = a.decodedChars + 1 :=
        Nat.min_eq_left (Nat.succ_le_of_lt hlt)
      refine ⟨?_, ?_, ?_, hc4, hc5⟩
      · rw [hshape]
        exact ⟨Nat.min_le_right _ _, fun hne => absurd hnone hne⟩
      · intro _ _
        rw [hshape]
        exact ⟨hmin, Nat.min_le_right _ _, hp⟩
      · intro _ hsucc
        rw [hshape] at hsucc
        exact absurd (hp.symm.trans hsucc) (by decide)
    · have heq : a.decodedChars = a.message.length :=
        Nat.le_antisymm hinv.1 (Nat.not_lt.mp hlt)
      by_cases hn : a.decodeCompleteTime = none
      · have hshape := update_decoding_setct a now hp hlt hn
        refine ⟨?_, ?_, ?_, hc4, hc5⟩
        · rw [hshape]
          exact ⟨hinv.1, fun _ => heq⟩
        · intro _ hc
          exact absurd hc hlt
        · intro _ hsucc
          rw [hshape] at hsucc
          exact absurd (hp.symm.trans hsucc) (by decide)
      · obtain ⟨ct, hctv⟩ : ∃ ct, a.decodeCompleteTime = some ct := by
          cases hcc : a.decodeCompleteTime with
          | none => exact absurd hcc hn
          | some c => exact ⟨c, rfl⟩
        have hshape := update_decoding_hold a now ct hp hlt hctv
        refine ⟨?_, ?_, ?_, hc4, hc5⟩
        · rw [hshape]
          split
          · exact ⟨hinv.1, fun _ => heq⟩
          · exact hinv
        · intro _ hc
          exact absurd hc hlt
        · intro _ hsucc
          rw [hshape] at hsucc
          split at hsucc
          · exact ⟨heq, ct, hctv, by assumption⟩
          · exact absurd (hp.symm.trans hsucc) (by decide)
  · have hshape := update_of_ne_decoding a now hp
    exact ⟨by rw [hshape]; exact hinv, fun hc => absurd hc hp,
      fun hc => absurd hc hp, hc4, hc5⟩

theorem C9_typewriter_and_hold_witness :
    DecInv (MatrixAnimation.new.authentication_success)
    ∧ ((MatrixAnimation.new.authentication_success).update 50).decodedChars
        = (MatrixAnimation.new.authentication_success).decodedChars + 1
    ∧ (2 : Nat) = ("HI" : String).length
    ∧ ∃ ct, (some 0 : Option Nat) = some ct ∧ decodeHoldMs < 3100 - ct := by
  have h3 := (C9_typewriter_and_hold
    (⟨AnimationPhase.decoding, "HI", 2, some 0⟩ : MatrixAnimation) 3100
    (by decide)).2.2.1 rfl (by decide)
  exact ⟨(C9_typewriter_and_hold MatrixAnimation.new 0 (by decide)).2.2.2.2 rfl,
    ((C9_typewriter_and_hold (MatrixAnimation.new.authentication_success) 50
      (by decide)).2.1 rfl (by decide)).1,
    h3.1, h3.2⟩

/-- The migration copy loop copies exactly the md-extension entries, in
order, and counts them. -/
theorem migrateLoop_eq : ∀ l : List SourceEntry,
    migrateLoop l = ((l.filter isMdEntry).length, l.filter isMdEntry) := by
  intro l
  induction l with
  | nil => rfl
  | cons e es ih =>
      cases h : isMdEntry e with
      | true => simp [migrateLoop, List.filter_cons, h, ih]
      | false => simp [migrateLoop, List.filter_cons, h, ih]

/-- C2 counterexample: save_password_to_keychain invoked with the secret
"hunter2" spawns the security command with "hunter2" in its argument list
(volume.rs 185, the -w flag), contradicting "never placed in any spawned
process's argument list". -/
theorem C2_counterexample :
    ((VolumeManager.new "/Users/u").save_password_to_keychain [] "hunter2").cmds
      = [securityAddCmd "hunter2"]
    ∧ "hunter2" ∈ (securityAddCmd "hunter2").args := by
  exact ⟨rfl, by simp [securityAddCmd]⟩

/-- C2 (amended): the unlock secret reaches the hdiutil disk-image tool only
through the piped input stream — the argument list of every hdiutil command
spawned by create_encrypted_volume and mount_with_password is independent of
the secret, and the secret is the piped stdin data — but
save_password_to_keychain places the secret into the spawned security
command's argument list (as the value of -w). -/
theorem C2_secret_piping (vm : VolumeManager) (env : VaultEnv) (store : Keychain)
    (p q : String) :
    (((vm.create_encrypted_volume env store p).2.1.filter
        (fun c => c.program == "hdiutil")).map Cmd.args
      = ((vm.create_encrypted_volume env store q).2.1.filter
        (fun c => c.program == "hdiutil")).map Cmd.args)
    ∧ (∀ (mounted : Bool) (attachOut : ProcOutput),
        ((vm.mount_with_password mounted attachOut p).2).map Cmd.args
          = ((vm.mount_with_password mounted attachOut q).2).map Cmd.args)
    ∧ (hdiutilCreateCmd vm p).stdinData = some p
    ∧ (hdiutilAttachCmd vm p).stdinData = some (p ++ "\n")
    ∧ p ∈ (securityAddCmd p).args
    ∧ (vm.save_password_to_keychain store p).cmds = [securityAddCmd p] := by
  refine ⟨?_, ?_, rfl, rfl, by simp [securityAddCmd], rfl⟩
  · cases hc : env.createOut.success <;>
    cases hm : env.mountedAtMount <;>
    cases hatt : env.attachOut.success <;>
    cases hmu : env.mountedAtUnmount <;>
    cases hd : env.detachOut.success <;>
    cases hfd : env.forceOut.success <;>
      simp [VolumeManager.create_encrypted_volume, VolumeManager.mount_with_password,
        VolumeManager.unmount, VolumeManager.save_password_to_keychain,
        hdiutilCreateCmd, hdiutilAttachCmd, hdiutilDetachCmd, securityAddCmd,
        hc, hm, hatt, hmu, hd, hfd]
  · intro mounted attachOut
    cases hm : mounted <;>
      simp [VolumeManager.mount_with_password, hdiutilAttachCmd]

theorem C2_secret_piping_witness :
    ((VolumeManager.new "/h").mount_with_password false
        (ProcOutput.mk true "" "") "pw1").2.map Cmd.args
      = ((VolumeManager.new "/h").mount_with_password false
        (ProcOutput.mk true "" "") "pw2").2.map Cmd.args :=
  (C2_secret_piping (VolumeManager.new "/h")
    (VaultEnv.mk (ProcOutput.mk true "" "") false (ProcOutput.mk true "" "")
      true (ProcOutput.mk true "" "") (ProcOutput.mk true "" ""))
    [] "pw1" "pw2").2.1 false (ProcOutput.mk true "" "")

/-- C6: unmount when the mount point does not exist succeeds without
spawning any process; when mounted it runs a graceful detach, on non-zero
exit retries with a forced detach, and reports an Unmount error carrying the
captured diagnostics only when both detaches fail. -/
theorem C6_unmount_escalation (vm : VolumeManager) (g f : ProcOutput) :
    vm.unmount false g f = (Except.ok (), [])
    ∧ (g.success = true →
        vm.unmount true g f = (Except.ok (), [hdiutilDetachCmd vm false]))
    ∧ (g.success = false → f.success = true →
        vm.unmount true g f = (Except.ok (),
          [hdiutilDetachCmd vm false, hdiutilDetachCmd vm true]))
    ∧ (g.success = false → f.success = false →
        vm.unmount true g f
          = (Except.error ("Failed to unmount volume: " ++ g.stderr),
             [hdiutilDetachCmd vm false, hdiutilDetachCmd vm true])) := by
  refine ⟨rfl, ?_, ?_, ?_⟩
  · intro hg
    simp [VolumeManager.unmount, hg]
  · intro hg hf
    simp [VolumeManager.unmount, hg, hf]
  · intro hg hf
    simp [VolumeManager.unmount, hg, hf]

theorem C6_unmount_escalation_witness :
    (VolumeManager.new "/h").unmount true (ProcOutput.mk true "" "")
        (ProcOutput.mk true "" "")
      = (Except.ok (), [hdiutilDetachCmd (VolumeManager.new "/h") false])
    ∧ (VolumeManager.new "/h").unmount true (ProcOutput.mk false "" "boom")
        (ProcOutput.mk true "" "")
      = (Except.ok (), [hdiutilDetachCmd (VolumeManager.new "/h") false,
          hdiutilDetachCmd (VolumeManager.new "/h") true])
    ∧ (VolumeManager.new "/h").unmount true (ProcOutput.mk false "" "boom")
        (ProcOutput.mk false "" "")
      = (Except.error ("Failed to unmount volume: "
            ++ (ProcOutput.mk false "" "boom").stderr),
         [hdiutilDetachCmd (VolumeManager.new "/h") false,
          hdiutilDetachCmd (VolumeManager.new "/h") true]) :=
  ⟨(C6_unmount_escalation (VolumeManager.new "/h") (ProcOutput.mk true "" "")
      (ProcOutput.mk true "" "")).2.1 rfl,
   (C6_unmount_escalation (VolumeManager.new "/h") (ProcOutput.mk false "" "boom")
      (ProcOutput.mk true "" "")).2.2.1 rfl rfl,
   (C6_unmount_escalation (VolumeManager.new "/h") (ProcOutput.mk false "" "boom")
      (ProcOutput.mk false "" "")).2.2.2 rfl rfl⟩

/-- C7: migrate_entries errors when the vault is not mounted (no file
copied, no directory created); when mounted it always creates the
destination entries directory, treats a missing source directory as zero
entries, and otherwise copies exactly the md-extension files and returns
their count. -/
theorem C7_migrate_entries (vm : VolumeManager) (mounted srcPresent : Bool)
    (entries : List SourceEntry) :
    (mounted = false → vm.migrate_entries mounted srcPresent entries
        = (Except.error "Volume must be mounted before migration", [], false))
    ∧ (mounted = true → (vm.migrate_entries mounted srcPresent entries).2.2 = true)
    ∧ (mounted = true → srcPresent = false →
        vm.migrate_entries mounted srcPresent entries = (Except.ok 0, [], true))
    ∧ (mounted = true → srcPresent = true →
        (vm.migrate_entries mounted srcPresent entries).2.1
            = entries.filter isMdEntry
        ∧ (vm.migrate_entries mounted srcPresent entries).1
            = Except.ok (entries.filter isMdEntry).length) := by
  refine ⟨?_, ?_, ?_, ?_⟩
  · intro hm
    simp [VolumeManager.migrate_entries, hm]
  · intro hm
    simp [VolumeManager.migrate_entries, hm]
  · intro hm hs
    simp [VolumeManager.migrate_entries, hm, hs]
  · intro hm hs
    simp [VolumeManager.migrate_entries, hm, hs, migrateLoop_eq]

theorem C7_migrate_entries_witness :
    (VolumeManager.new "/h").migrate_entries false true
        [SourceEntry.mk "a.md" (some "md")]
      = (Except.error "Volume must be mounted before migration", [], false)
    ∧ ((VolumeManager.new "/h").migrate_entries true false
        [SourceEntry.mk "a.md" (some "md")]) = (Except.ok 0, [], true)
    ∧ ((VolumeManager.new "/h").migrate_entries true true
        [SourceEntry.mk "a.md" (some "md"), SourceEntry.mk "b.txt" (some "txt"),
         SourceEntry.mk "c" none]).2.1
      = [SourceEntry.mk "a.md" (some "md"), SourceEntry.mk "b.txt" (some "txt"),
         SourceEntry.mk "c" none].filter isMdEntry
    ∧ ((VolumeManager.new "/h").migrate_entries true true
        [SourceEntry.mk "a.md" (some "md"), SourceEntry.mk "b.txt" (some "txt"),
         SourceEntry.mk "c" none]).1
      = Except.ok ([SourceEntry.mk "a.md" (some "md"),
          SourceEntry.mk "b.txt" (some "txt"),
          SourceEntry.mk "c" none].filter isMdEntry).length := by
  have h4 := (C7_migrate_entries (VolumeManager.new "/h") true true
    [SourceEntry.mk "a.md" (some "md"), SourceEntry.mk "b.txt" (some "txt"),
     SourceEntry.mk "c" none]).2.2.2 rfl rfl
  exact ⟨(C7_migrate_entries (VolumeManager.new "/h") false true
      [SourceEntry.mk "a.md" (some "md")]).1 rfl,
    (C7_migrate_entries (VolumeManager.new "/h") true false
      [SourceEntry.mk "a.md" (some "md")]).2.2.1 rfl rfl,
    h4.1, h4.2⟩

/-- C8: save_password_to_keychain overwrites any prior entry for the fixed
service/account pair (the -U update semantics of the secure store); and
get_password_from_keychain fails with the dedicated "Password not found in
keychain" error exactly when no entry exists for the pair, returns the
stored (trimmed) password when one does, and that error is distinguishable
from the generic Mount-failure errors of the module. -/
theorem C8_keychain_save_and_notfound (vm : VolumeManager) (store : Keychain)
    (p : String) :
    keyLookup ((vm.save_password_to_keychain store p).store) = some p
    ∧ ((vm.get_password_from_keychain store).result
        = Except.error "Password not found in keychain" ↔ keyLookup store = none)
    ∧ (∀ pw, keyLookup store = some pw →
        (vm.get_password_from_keychain store).result
          = Except.ok ((pw ++ "\n").trim))
    ∧ (∀ s : String,
        ("Password not found in keychain" : String)
          ≠ "Failed to mount volume: " ++ s) := by
  refine ⟨?_, ?_, ?_, ?_⟩
  · simp [keyLookup, VolumeManager.save_password_to_keychain, securityAddGeneric]
  · rw [keyLookup]
    cases hk : (List.find? (fun e => e.1 == ("journal-tui", "JournalVault")) store) with
    | none =>
        simp [VolumeManager.get_password_from_keychain, securityFindGeneric,
          keyLookup, hk]
    | some e =>
        simp [VolumeManager.get_password_from_keychain, securityFindGeneric,
          keyLookup, hk]
  · intro pw hpw
    rw [keyLookup] at hpw
    cases hk : (List.find? (fun e => e.1 == ("journal-tui", "JournalVault")) store) with
    | none => rw [hk] at hpw; cases hpw
    | some e =>
        rw [hk] at hpw
        simp only [Option.map_some'] at hpw
        simp [VolumeManager.get_password_from_keychain, securityFindGeneric,
          keyLookup, hk, hpw]
  · intro s h
    have h2 := congrArg String.data h
    rw [String.data_append] at h2
    have h3 := congrArg (List.take 1) h2
    rw [List.take_append_of_le_length (by decide)] at h3
    exact absurd h3 (by decide)

theorem C8_keychain_save_and_notfound_witness :
    keyLookup (((VolumeManager.new "/h").save_password_to_keychain
        [(("journal-tui", "JournalVault"), "old")] "new1").store) = some "new1"
    ∧ ((VolumeManager.new "/h").get_password_from_keychain []).result
        = Except.error "Password not found in keychain"
    ∧ ((VolumeManager.new "/h").get_password_from_keychain
        [(("journal-tui", "JournalVault"), "pw")]).result
        = Except.ok (("pw" ++ "\n").trim) := by
  refine ⟨(C8_keychain_save_and_notfound (VolumeManager.new "/h")
      [(("journal-tui", "JournalVault"), "old")] "new1").1, ?_, ?_⟩
  · exact (C8_keychain_save_and_notfound (VolumeManager.new "/h") [] "x").2.1.mpr
      (by decide)
  · exact (C8_keychain_save_and_notfound (VolumeManager.new "/h")
      [(("journal-tui", "JournalVault"), "pw")] "x").2.2.1 "pw" (by decide)

/-- C10: once a row is outside the active trailing band (its relative
position w.r.t. the advanced fall position is not in [0, trail length)),
one MatrixColumn::update multiplies its brightness by exactly 0.95; a
positive brightness therefore strictly decreases on every such tick, and
repeated decay eventually drives any brightness below the negligible 0.01
rendering threshold. -/
theorem C10_brightness_decay :
    (∀ (c : MatrixColumn) (r : ColumnRand) (i : Nat), i < c.brightness.length →
        ¬ (0 ≤ (i : Rat) - (c.position + c.speed)
            ∧ (i : Rat) - (c.position + c.speed) < (c.length : Rat)) →
        (c.update r).brightness.getD i 0 = 0.95 * c.brightness.getD i 0)
    ∧ (∀ b : Rat, 0 < b → (0.95 : Rat) * b < b)
    ∧ (∀ b : Rat, 0 ≤ b → ∃ n : Nat, (0.95 : Rat) ^ n * b ≤ 1 / 100) := by
  refine ⟨?_, ?_, ?_⟩
  · intro c r i hi hout
    have hb : (c.update r).brightness
        = (List.range c.brightness.length).map (fun j : Nat =>
            if 0 ≤ (j : Rat) - (c.position + c.speed)
                ∧ (j : Rat) - (c.position + c.speed) < (c.length : Rat)
            then 1 - ((j : Rat) - (c.position + c.speed)) / (c.length : Rat)
            else 0.95 * c.brightness.getD j 0) := by
      unfold MatrixColumn.update
      dsimp only
      split <;> rfl
    rw [hb, List.getD_eq_getElem?_getD, List.getElem?_map, List.getElem?_range hi]
    simp only [Option.map_some', Option.getD_some]
    rw [if_neg hout]
  · intro b hb
    nlinarith [hb]
  · intro b hb
    rcases eq_or_lt_of_le hb with heq | hpos
    · exact ⟨0, by rw [← heq]; norm_num⟩
    · obtain ⟨n, hn⟩ := exists_pow_lt_of_lt_one
        (show (0 : Rat) < (1 / 100) / b by positivity)
        (show (0.95 : Rat) < 1 by norm_num)
      refine ⟨n, ?_⟩
      have h2 : (0.95 : Rat) ^ n * b < ((1 / 100) / b) * b :=
        mul_lt_mul_of_pos_right hn hpos
      rw [div_mul_cancel₀] at h2
      · exact le_of_lt h2
      · exact ne_of_gt hpos

theorem C10_brightness_decay_witness :
    ((MatrixColumn.mk [Char.ofNat 65] 0 0 0 [2]).update
        (ColumnRand.mk (fun x => x) 0 0 0)).brightness.getD 0 0
      = 0.95 * (MatrixColumn.mk [Char.ofNat 65] 0 0 0 [2]).brightness.getD 0 0
    ∧ (0.95 : Rat) * (1 / 2) < 1 / 2
    ∧ ∃ n : Nat, (0.95 : Rat) ^ n * 1 ≤ 1 / 100 :=
  ⟨C10_brightness_decay.1 (MatrixColumn.mk [Char.ofNat 65] 0 0 0 [2])
      (ColumnRand.mk (fun x => x) 0 0 0) 0 (by decide) (by simp),
   C10_brightness_decay.2.1 (1 / 2) one_half_pos,
   C10_brightness_decay.2.2 1 zero_le_one⟩

end JournalTui
